import Mathlib

/-!
Shallow embedding of `client.go` from the failawarehttp repository: a retrying
HTTP client built around a retry loop (`Do`), a retry/terminal classification,
a body-replay mechanism (`readBody` plus per-attempt buffer installation), and
an exponential-backoff-with-jitter calculator (`expJitterBackOff`).

Go `int` / `time.Duration` values are 64-bit; arithmetic that can wrap is made
explicit through `wrap64`.  `time.Duration` values are modelled as `Int`
nanoseconds, exactly as in Go.  The underlying transport (`http.Client.Do`),
the wall clock (`time.Now`), the random source (`random.Intn`) and the sleep
(`<-time.After`) are external effects; they are modelled as explicit
parameters collected in `DoEnv`, indexed by the attempt counter `retried`.
-/

/-- Interpretation of a 64-bit two's-complement integer: reduce an unbounded
`Int` into the range `[-2^63, 2^63)`, which is how every Go `int`/`int64`
operation that can overflow behaves.  The numerals are `2^63` and `2^64`. -/
def wrap64 (x : Int) : Int :=
  (x + 9223372036854775808) % 18446744073709551616 - 9223372036854775808

/-- Go's `time.Millisecond` in nanoseconds. -/
def timeMillisecond : Int := 1000000

/-- Go's `time.Second` in nanoseconds. -/
def timeSecond : Int := 1000000000

/-- Model of Go's `http.Response`, restricted to the only field the client
inspects: `StatusCode` (a Go `int`). -/
structure Response where
  statusCode : Int
deriving Repr, DecidableEq

/-- Outcome of one call to the underlying `c.httpClient.Do(originalReq)`:
either a non-nil response with nil error (`ok`), or a non-nil error,
possibly still carrying a response (`fail`, covering Go's redirect edge
case).  `http.Client.Do` never returns a nil response together with a nil
error, so that combination is unrepresentable here. -/
inductive TransportResult where
  | ok (rsp : Response)
  | fail (rsp : Option Response) (err : String)
deriving Repr, DecidableEq

/-- Response component of a transport outcome (`lastResponse` in `Do`). -/
def TransportResult.response : TransportResult → Option Response
  | .ok r => some r
  | .fail r _ => r

/-- Error component of a transport outcome (`lastError` in `Do`). -/
def TransportResult.error : TransportResult → Option String
  | .ok _ => none
  | .fail _ e => some e

/-- Model of `FailAwareHTTPOptions` from `client.go`.  `Timeout` and
`BackOffDelayFactor` are `time.Duration` values in nanoseconds. -/
structure FailAwareHTTPOptions where
  MaxRetries : Int
  Timeout : Int
  BackOffDelayFactor : Int
  KeepLog : Bool
deriving Repr, DecidableEq

/-- Model of `NewDefaultOptions()` from `client.go`: `MaxRetries` 3,
`Timeout` one second, `BackOffDelayFactor` one second, `KeepLog` false. -/
def NewDefaultOptions : FailAwareHTTPOptions :=
  { MaxRetries := 3
    Timeout := 1 * timeSecond
    BackOffDelayFactor := 1 * timeSecond
    KeepLog := false }

/-- Model of the package variable `defaultOptions = NewDefaultOptions()`. -/
def defaultOptions : FailAwareHTTPOptions := NewDefaultOptions

/-- Model of the package variable `nullOptions = FailAwareHTTPOptions{}`
(every field at its Go zero value). -/
def nullOptions : FailAwareHTTPOptions :=
  { MaxRetries := 0, Timeout := 0, BackOffDelayFactor := 0, KeepLog := false }

/-- Model of `NewClient(options)` from `client.go`, reduced to the effective
options it stores: each numeric field that equals its zero value is replaced
by the default, field by field; `KeepLog` is passed through. -/
def NewClient (options : FailAwareHTTPOptions) : FailAwareHTTPOptions :=
  let timeout : Int :=
    if options.Timeout = nullOptions.Timeout then defaultOptions.Timeout
    else options.Timeout
  let maxRetries : Int :=
    if options.MaxRetries = nullOptions.MaxRetries then defaultOptions.MaxRetries
    else options.MaxRetries
  let backOffDelay : Int :=
    if options.BackOffDelayFactor = nullOptions.BackOffDelayFactor then
      defaultOptions.BackOffDelayFactor
    else options.BackOffDelayFactor
  { Timeout := timeout
    MaxRetries := maxRetries
    BackOffDelayFactor := backOffDelay
    KeepLog := options.KeepLog }

/-- Model of `ErrEntry` from `client.go`; timestamps are clock values in
nanoseconds (`time.Now()` readings). -/
structure ErrEntry where
  err : Option String
  response : Option Response
  timestampStarted : Nat
  timestampFinished : Nat
deriving Repr, DecidableEq

/-- Model of `FailAwareHTTPError` from `client.go`, the structured error
returned by `Do`. -/
structure FailAwareHTTPError where
  Retries : Int
  Errors : List ErrEntry
  LastError : Option String
deriving Repr, DecidableEq

/-- Model of `readBody(body)` from `client.go`.  The request body is an
external reader, modelled by what reading it to the end would yield: `none`
for a nil body, `some (.ok bytes)` for a successful read, and
`some (.error e)` for a failing read.  A nil body yields nil bytes and a nil
error; a failing read propagates its error; otherwise the bytes are
returned. -/
def readBody : Option (Except String (List Nat)) → Except String (Option (List Nat))
  | none => .ok none
  | some (.error e) => .error e
  | some (.ok bs) => .ok (some bs)

/-- Model of `expJitterBackOff(retries, backOffDelayFactor)` from
`client.go`.  `r` stands for the value the shared random source returns from
`random.Intn(2*maxJitter)`; the caller guarantees `0 ≤ r < 2*maxJitter`
whenever that call succeeds.  `rand.Intn` panics when its argument is `≤ 0`,
which this model makes explicit by returning `none` in that case.  The result
is the returned `time.Duration` in nanoseconds. -/
def expJitterBackOff (retries : Nat) (backOffDelayFactor : Int) (r : Int) : Option Int :=
  let e := wrap64 (2 ^ retries)
  let ms := wrap64 (e * Int.tdiv backOffDelayFactor timeMillisecond)
  let maxJitter := Int.tdiv ms 3
  if wrap64 (2 * maxJitter) ≤ 0 then
    none
  else
    let ms := wrap64 (ms + wrap64 (r - maxJitter))
    let ms := if ms ≤ 0 then 1 else ms
    some (wrap64 (ms * timeMillisecond))

/-- Retry/terminal classification of line 194 of `client.go`:
`lastError == nil && lastResponse.StatusCode < 500 && lastResponse.StatusCode != 429`,
with Go's short-circuit evaluation (the status is only inspected when the
error is nil, and a nil error always comes with a non-nil response). -/
def isTerminal (t : TransportResult) : Bool :=
  t.error = none &&
    (match t.response with
     | some r => decide (r.statusCode < 500) && decide (r.statusCode ≠ 429)
     | none => false)

/-- External effects consumed by one `Do` call, indexed by the attempt
counter `retried`: the transport outcome of each attempt, the wall-clock time
the transport call took (nanoseconds), the value `random.Intn` yields for
each backoff computation, and any extra time `<-time.After` slept beyond the
requested duration. -/
structure DoEnv where
  transport : Nat → TransportResult
  transportDur : Nat → Nat
  randVal : Nat → Int
  waitSlack : Nat → Nat

/-- Result value of a `Do` call: the pair `(response, error)` Go returns,
or the two abnormal exits — the early return of the body-read error
(line 173), and the propagated panic out of `rand.Intn` when the jitter
range is empty. -/
inductive DoResult where
  | panicked
  | bodyReadError (err : String)
  | returned (resp : Option Response) (err : Option FailAwareHTTPError)
deriving Repr, DecidableEq

/-- Observable trace of one `Do` call.  `result` is what `Do` returns;
the remaining fields are instrumentation of the execution: `attempts` counts
transport calls actually made, `waits` lists the `jitter` durations passed to
`<-time.After` in order, `log` is the final `errLog` slice, `sentBodies`
records, per attempt, the bytes installed as the request body (`none` when no
body is installed), and `deadBranch` records whether the unreachable
line-198 return (non-nil error inside the nil-error guard) was ever taken. -/
structure DoTrace where
  result : DoResult
  attempts : Nat
  waits : List Int
  log : List ErrEntry
  sentBodies : List (Option (List Nat))
  deadBranch : Bool
deriving Repr, DecidableEq

/-- Model of `errEntryNow(err, rsp, started)` from `client.go`: one attempt
record; `finished` is the `time.Now()` reading taken inside it. -/
def errEntryNow (outcome : TransportResult) (started finished : Nat) : ErrEntry :=
  { err := outcome.error, response := outcome.response,
    timestampStarted := started, timestampFinished := finished }

/-- Value returned when the loop falls through to exhaustion, lines 207–210
of `client.go`: a nil `lastError` yields `(lastResponse, nil)`; otherwise the
structured `FailAwareHTTPError` is assembled from the final loop counter, the
log and the last error. -/
def exhaustResult (retried : Nat) (lastResponse : Option Response)
    (lastError : Option String) (errLog : List ErrEntry) : DoResult :=
  if lastError = none then
    .returned lastResponse none
  else
    .returned lastResponse
      (some { Retries := (retried : Int), Errors := errLog, LastError := lastError })

/-- Retry loop of `Do` (lines 180–210 of `client.go`).  The Go loop is
`for ; retried < c.options.MaxRetries; retried++`; here `fuel` is the number
of remaining iterations (`MaxRetries - retried`, clamped at zero), so the
guard `retried < MaxRetries` holds exactly when `fuel` is nonzero.  `now` is
the current clock in nanoseconds; `lastResponse`, `lastError`, `errLog` carry
the loop-local variables; `waits` and `sentB` accumulate instrumentation.
An attempt first installs a fresh buffer over `originalBody` (lines 182–186,
recorded in `sentB`), performs the transport call, appends an `ErrEntry` when
`KeepLog` is set, then either returns on the terminal classification
(lines 194–199, with the dead inner branch transcribed) or computes the
jitter and sleeps before the next iteration (lines 201–204).  Falling out of
the loop reaches lines 207–210. -/
def doLoop (opts : FailAwareHTTPOptions) (env : DoEnv)
    (originalBody : Option (List Nat)) :
    Nat → Nat → Nat → Option Response → Option String →
    List ErrEntry → List Int → List (Option (List Nat)) → DoTrace
  | 0, retried, _, lastResponse, lastError, errLog, waits, sentB =>
    { result := exhaustResult retried lastResponse lastError errLog,
      attempts := retried, waits := waits, log := errLog, sentBodies := sentB,
      deadBranch := false }
  | fuel + 1, retried, now, _, _, errLog, waits, sentB =>
    let sentB := sentB ++ [originalBody]
    let started := now
    let outcome := env.transport retried
    let finished := started + env.transportDur retried
    let errLog :=
      if opts.KeepLog then errLog ++ [errEntryNow outcome started finished]
      else errLog
    if isTerminal outcome then
      if outcome.error = none then
        { result := .returned outcome.response none, attempts := retried + 1,
          waits := waits, log := errLog, sentBodies := sentB, deadBranch := false }
      else
        { result := .returned outcome.response
            (some { Retries := (retried : Int), Errors := errLog,
                    LastError := outcome.error }),
          attempts := retried + 1, waits := waits, log := errLog,
          sentBodies := sentB, deadBranch := true }
    else
      match expJitterBackOff retried opts.BackOffDelayFactor (env.randVal retried) with
      | none =>
        { result := .panicked, attempts := retried + 1, waits := waits,
          log := errLog, sentBodies := sentB, deadBranch := false }
      | some jitter =>
        doLoop opts env originalBody fuel (retried + 1)
          (finished + jitter.toNat + env.waitSlack retried)
          outcome.response outcome.error errLog (waits ++ [jitter]) sentB

/-- Model of `Do(originalReq)` from `client.go`: capture the body via
`readBody` (returning its error before any attempt when the read fails),
then run the retry loop starting at `retried = 0` with nil
`lastResponse`/`lastError` and an empty log.  `clock` is the `time.Now()`
reading at entry. -/
def Do (opts : FailAwareHTTPOptions) (env : DoEnv)
    (body : Option (Except String (List Nat))) (clock : Nat) : DoTrace :=
  match readBody body with
  | .error e =>
    { result := .bodyReadError e, attempts := 0, waits := [], log := [],
      sentBodies := [], deadBranch := false }
  | .ok originalBody =>
    doLoop opts env originalBody opts.MaxRetries.toNat 0 clock none none [] [] []

/-- Test fixture: an environment whose transport returns the same outcome on
every attempt, takes no measurable time, whose random source always yields 0
and whose sleeps have no slack. -/
def constEnv (t : TransportResult) : DoEnv :=
  { transport := fun _ => t
    transportDur := fun _ => 0
    randVal := fun _ => 0
    waitSlack := fun _ => 0 }

/-! ## Helper lemmas -/

theorem wrap64_id (x : Int) (h0 : -9223372036854775808 ≤ x)
    (h1 : x < 9223372036854775808) : wrap64 x = x := by
  unfold wrap64
  omega

/-- Characterization of `expJitterBackOff` on the wrap-free range: writing
`fm` for the factor truncated to whole milliseconds and `B = 2^i * fm` for
the base, when `3 ≤ B ≤ 10^12` and the random value is in `[0, 2*(B/3))`,
no 64-bit wrap and no clamp occurs, `rand.Intn` does not panic, and the
result is `(B + r - B/3)` milliseconds. -/
theorem expJitterBackOff_eq (i : Nat) (factor r : Int)
    (hbase : 3 ≤ 2 ^ i * Int.tdiv factor timeMillisecond)
    (hhi : 2 ^ i * Int.tdiv factor timeMillisecond ≤ 10 ^ 12)
    (hr0 : 0 ≤ r)
    (hr1 : r < 2 * ((2 ^ i * Int.tdiv factor timeMillisecond) / 3)) :
    expJitterBackOff i factor r =
      some ((2 ^ i * Int.tdiv factor timeMillisecond + r
             - (2 ^ i * Int.tdiv factor timeMillisecond) / 3) * 1000000) := by
  have hp : (0 : Int) < 2 ^ i := by positivity
  have hfm1 : 1 ≤ Int.tdiv factor timeMillisecond := by
    rcases le_or_lt 1 (Int.tdiv factor timeMillisecond) with h | h
    · exact h
    · exfalso
      have : 2 ^ i * Int.tdiv factor timeMillisecond ≤ 0 :=
        mul_nonpos_of_nonneg_of_nonpos (le_of_lt hp) (by omega)
      omega
  have hpB : (2 : Int) ^ i ≤ 2 ^ i * Int.tdiv factor timeMillisecond := by
    nlinarith
  set B := 2 ^ i * Int.tdiv factor timeMillisecond with hB
  unfold expJitterBackOff
  simp only []
  rw [wrap64_id (2 ^ i) (by omega) (by omega), ← hB,
    wrap64_id B (by omega) (by omega),
    Int.tdiv_eq_ediv (by omega) (by omega)]
  rw [wrap64_id (2 * (B / 3)) (by omega) (by omega)]
  rw [if_neg (by omega)]
  rw [wrap64_id (r - B / 3) (by omega) (by omega),
    wrap64_id (B + (r - B / 3)) (by omega) (by omega)]
  rw [if_neg (by omega)]
  rw [show timeMillisecond = 1000000 from rfl,
    wrap64_id ((B + (r - B / 3)) * 1000000) (by omega) (by omega)]
  congr 1
  ring

/-- A terminal outcome always has a nil error (the first conjunct of the
line-194 condition). -/
theorem isTerminal_error_eq_none (t : TransportResult) (h : isTerminal t = true) :
    t.error = none := by
  cases t with
  | ok r => rfl
  | fail rsp e => simp [isTerminal, TransportResult.error] at h

/-- Unfolding of the classification rule: an outcome is terminal exactly when
it is an errorless response whose status is below 500 and is not 429. -/
theorem isTerminal_iff (t : TransportResult) :
    isTerminal t = true ↔
      ∃ r, t = TransportResult.ok r ∧ r.statusCode < 500 ∧ r.statusCode ≠ 429 := by
  cases t with
  | ok r =>
    simp [isTerminal, TransportResult.error, TransportResult.response]
  | fail rsp e =>
    simp [isTerminal, TransportResult.error]

/-- Unfolding of one loop iteration whose attempt is classified terminal:
the loop returns `(response, nil)` at once; no wait is recorded. -/
theorem doLoop_succ_terminal (opts : FailAwareHTTPOptions) (env : DoEnv)
    (ob : Option (List Nat)) (fuel retried now : Nat) (lastR : Option Response)
    (lastE : Option String) (errLog : List ErrEntry) (waits : List Int)
    (sentB : List (Option (List Nat)))
    (hT : isTerminal (env.transport retried) = true) :
    doLoop opts env ob (fuel + 1) retried now lastR lastE errLog waits sentB =
      { result := .returned (env.transport retried).response none,
        attempts := retried + 1,
        waits := waits,
        log := if opts.KeepLog then
            errLog ++ [errEntryNow (env.transport retried) now
              (now + env.transportDur retried)]
          else errLog,
        sentBodies := sentB ++ [ob],
        deadBranch := false } := by
  simp only [doLoop]
  rw [if_pos hT, if_pos (isTerminal_error_eq_none _ hT)]

/-- Unfolding of one loop iteration whose attempt is retryable and whose
jitter computation panics (`rand.Intn` with an empty range). -/
theorem doLoop_succ_panic (opts : FailAwareHTTPOptions) (env : DoEnv)
    (ob : Option (List Nat)) (fuel retried now : Nat) (lastR : Option Response)
    (lastE : Option String) (errLog : List ErrEntry) (waits : List Int)
    (sentB : List (Option (List Nat)))
    (hT : isTerminal (env.transport retried) = false)
    (hE : expJitterBackOff retried opts.BackOffDelayFactor (env.randVal retried) = none) :
    doLoop opts env ob (fuel + 1) retried now lastR lastE errLog waits sentB =
      { result := .panicked,
        attempts := retried + 1,
        waits := waits,
        log := if opts.KeepLog then
            errLog ++ [errEntryNow (env.transport retried) now
              (now + env.transportDur retried)]
          else errLog,
        sentBodies := sentB ++ [ob],
        deadBranch := false } := by
  simp only [doLoop]
  rw [if_neg (by simp [hT]), hE]

/-- Unfolding of one loop iteration whose attempt is retryable and whose
jitter computation succeeds: the loop waits `j` (recorded) and re-enters
with the counter incremented and the clock advanced by the transport time,
the jitter and the sleep slack. -/
theorem doLoop_succ_retry (opts : FailAwareHTTPOptions) (env : DoEnv)
    (ob : Option (List Nat)) (fuel retried now : Nat) (lastR : Option Response)
    (lastE : Option String) (errLog : List ErrEntry) (waits : List Int)
    (sentB : List (Option (List Nat))) (j : Int)
    (hT : isTerminal (env.transport retried) = false)
    (hE : expJitterBackOff retried opts.BackOffDelayFactor (env.randVal retried) = some j) :
    doLoop opts env ob (fuel + 1) retried now lastR lastE errLog waits sentB =
      doLoop opts env ob fuel (retried + 1)
        (now + env.transportDur retried + j.toNat + env.waitSlack retried)
        (env.transport retried).response (env.transport retried).error
        (if opts.KeepLog then
            errLog ++ [errEntryNow (env.transport retried) now
              (now + env.transportDur retried)]
          else errLog)
        (waits ++ [j]) (sentB ++ [ob]) := by
  simp only [doLoop]
  rw [if_neg (by simp [hT]), hE]

/-- The line-198 branch (a non-nil error inside the guard that just checked
the error is nil) is dead code: no execution of the loop ever takes it. -/
theorem doLoop_deadBranch_false (opts : FailAwareHTTPOptions) (env : DoEnv)
    (ob : Option (List Nat)) :
    ∀ (fuel retried now : Nat) (lastR : Option Response) (lastE : Option String)
      (errLog : List ErrEntry) (waits : List Int) (sentB : List (Option (List Nat))),
      (doLoop opts env ob fuel retried now lastR lastE errLog waits sentB).deadBranch
        = false := by
  intro fuel
  induction fuel with
  | zero =>
    intro retried now lastR lastE errLog waits sentB
    rfl
  | succ fuel ih =>
    intro retried now lastR lastE errLog waits sentB
    simp only [doLoop]
    by_cases hT : isTerminal (env.transport retried)
    · rw [if_pos hT, if_pos (isTerminal_error_eq_none _ hT)]
    · rw [if_neg hT]
      cases hE : expJitterBackOff retried opts.BackOffDelayFactor (env.randVal retried) with
      | none => rfl
      | some j => exact ih _ _ _ _ _ _ _

/-- The loop never rolls the attempt counter back: the number of attempts in
the trace is at least the counter it was entered with. -/
theorem doLoop_attempts_ge (opts : FailAwareHTTPOptions) (env : DoEnv)
    (ob : Option (List Nat)) :
    ∀ (fuel retried now : Nat) (lastR : Option Response) (lastE : Option String)
      (errLog : List ErrEntry) (waits : List Int) (sentB : List (Option (List Nat))),
      retried ≤ (doLoop opts env ob fuel retried now lastR lastE errLog waits sentB).attempts := by
  intro fuel
  induction fuel with
  | zero =>
    intro retried now lastR lastE errLog waits sentB
    exact Nat.le_refl _
  | succ fuel ih =>
    intro retried now lastR lastE errLog waits sentB
    simp only [doLoop]
    by_cases hT : isTerminal (env.transport retried)
    · rw [if_pos hT, if_pos (isTerminal_error_eq_none _ hT)]
      exact Nat.le_succ _
    · rw [if_neg hT]
      cases hE : expJitterBackOff retried opts.BackOffDelayFactor (env.randVal retried) with
      | none => exact Nat.le_succ _
      | some j =>
        exact Nat.le_of_succ_le (ih (retried + 1) _ _ _ _ _ _)

/-- Body replay invariant of the loop: every performed attempt appends the
same captured body `ob` to the record of installed bodies, so the trace
extends the accumulator by one copy of `ob` per attempt. -/
theorem doLoop_sentBodies (opts : FailAwareHTTPOptions) (env : DoEnv)
    (ob : Option (List Nat)) :
    ∀ (fuel retried now : Nat) (lastR : Option Response) (lastE : Option String)
      (errLog : List ErrEntry) (waits : List Int) (sentB : List (Option (List Nat))),
      ∃ n,
        (doLoop opts env ob fuel retried now lastR lastE errLog waits sentB).attempts
          = retried + n ∧
        (doLoop opts env ob fuel retried now lastR lastE errLog waits sentB).sentBodies
          = sentB ++ List.replicate n ob := by
  intro fuel
  induction fuel with
  | zero =>
    intro retried now lastR lastE errLog waits sentB
    exact ⟨0, rfl, by simp [doLoop]⟩
  | succ fuel ih =>
    intro retried now lastR lastE errLog waits sentB
    by_cases hT : isTerminal (env.transport retried)
    · rw [doLoop_succ_terminal opts env ob fuel retried now lastR lastE errLog waits sentB hT]
      exact ⟨1, rfl, by simp⟩
    · rw [Bool.not_eq_true] at hT
      cases hE : expJitterBackOff retried opts.BackOffDelayFactor (env.randVal retried) with
      | none =>
        rw [doLoop_succ_panic opts env ob fuel retried now lastR lastE errLog waits sentB hT hE]
        exact ⟨1, rfl, by simp⟩
      | some j =>
        rw [doLoop_succ_retry opts env ob fuel retried now lastR lastE errLog waits sentB j hT hE]
        obtain ⟨n, h1, h2⟩ := ih (retried + 1)
          (now + env.transportDur retried + j.toNat + env.waitSlack retried)
          (env.transport retried).response (env.transport retried).error
          (if opts.KeepLog then
            errLog ++ [errEntryNow (env.transport retried) now
              (now + env.transportDur retried)]
           else errLog)
          (waits ++ [j]) (sentB ++ [ob])
        refine ⟨n + 1, by omega, ?_⟩
        rw [h2]
        simp [List.replicate_succ]

/-- Backoff pacing of the loop: provided no jitter computation panics, the
trace records exactly one wait for every performed attempt that is
classified retryable — no more and no fewer. -/
theorem doLoop_wait_count (opts : FailAwareHTTPOptions) (env : DoEnv)
    (ob : Option (List Nat)) :
    ∀ (fuel retried now : Nat) (lastR : Option Response) (lastE : Option String)
      (errLog : List ErrEntry) (waits : List Int) (sentB : List (Option (List Nat))),
      (∀ k, k < fuel → (expJitterBackOff (retried + k) opts.BackOffDelayFactor
          (env.randVal (retried + k))).isSome = true) →
      ∃ n,
        (doLoop opts env ob fuel retried now lastR lastE errLog waits sentB).attempts
          = retried + n ∧
        (doLoop opts env ob fuel retried now lastR lastE errLog waits sentB).waits.length
          = waits.length
            + (List.range' retried n).countP (fun i => !(isTerminal (env.transport i))) := by
  intro fuel
  induction fuel with
  | zero =>
    intro retried now lastR lastE errLog waits sentB _
    exact ⟨0, rfl, by simp [doLoop]⟩
  | succ fuel ih =>
    intro retried now lastR lastE errLog waits sentB hjit
    by_cases hT : isTerminal (env.transport retried)
    · rw [doLoop_succ_terminal opts env ob fuel retried now lastR lastE errLog waits sentB hT]
      refine ⟨1, rfl, ?_⟩
      rw [List.range'_succ, List.countP_cons]
      simp [hT]
    · rw [Bool.not_eq_true] at hT
      cases hE : expJitterBackOff retried opts.BackOffDelayFactor (env.randVal retried) with
      | none =>
        exfalso
        have := hjit 0 (Nat.succ_pos _)
        rw [Nat.add_zero, hE] at this
        simp at this
      | some j =>
        rw [doLoop_succ_retry opts env ob fuel retried now lastR lastE errLog waits sentB j hT hE]
        obtain ⟨n, h1, h2⟩ := ih (retried + 1)
          (now + env.transportDur retried + j.toNat + env.waitSlack retried)
          (env.transport retried).response (env.transport retried).error
          (if opts.KeepLog then
            errLog ++ [errEntryNow (env.transport retried) now
              (now + env.transportDur retried)]
           else errLog)
          (waits ++ [j]) (sentB ++ [ob])
          (fun k hk => by
            have := hjit (k + 1) (Nat.succ_lt_succ hk)
            rwa [show retried + (k + 1) = retried + 1 + k by omega] at this)
        refine ⟨n + 1, by omega, ?_⟩
        rw [h2, List.range'_succ, List.countP_cons]
        simp [hT]
        omega

/-- Exhaustion run of the loop: when every remaining attempt is classified
retryable and no jitter computation panics, the loop performs all `fuel`
remaining attempts, records one wait per attempt (the final attempt
included), extends the log by one entry per attempt exactly when `KeepLog`
is set, and falls through to the lines 207–210 exit built from the outcome
of the final attempt.  The appended log entries start no earlier than the
entry clock, and their start timestamps are strictly increasing whenever
every computed jitter is positive. -/
theorem doLoop_all_retryable (opts : FailAwareHTTPOptions) (env : DoEnv)
    (ob : Option (List Nat)) :
    ∀ (fuel retried now : Nat) (lastR : Option Response) (lastE : Option String)
      (errLog : List ErrEntry) (waits : List Int) (sentB : List (Option (List Nat))),
      (∀ k, k < fuel → isTerminal (env.transport (retried + k)) = false) →
      (∀ k, k < fuel → (expJitterBackOff (retried + k) opts.BackOffDelayFactor
          (env.randVal (retried + k))).isSome = true) →
      ∃ (newEntries : List ErrEntry) (newWaits : List Int),
        doLoop opts env ob fuel retried now lastR lastE errLog waits sentB =
          { result := exhaustResult (retried + fuel)
              (if fuel = 0 then lastR else (env.transport (retried + fuel - 1)).response)
              (if fuel = 0 then lastE else (env.transport (retried + fuel - 1)).error)
              (errLog ++ newEntries),
            attempts := retried + fuel,
            waits := waits ++ newWaits,
            log := errLog ++ newEntries,
            sentBodies := sentB ++ List.replicate fuel ob,
            deadBranch := false } ∧
        newWaits.length = fuel ∧
        newEntries.length = (if opts.KeepLog then fuel else 0) ∧
        (∀ e ∈ newEntries, now ≤ e.timestampStarted) ∧
        ((∀ k, k < fuel → ∀ j : Int,
            expJitterBackOff (retried + k) opts.BackOffDelayFactor
              (env.randVal (retried + k)) = some j → 0 < j) →
          List.Pairwise
            (fun a b : ErrEntry => a.timestampStarted < b.timestampStarted)
            newEntries) := by
  intro fuel
  induction fuel with
  | zero =>
    intro retried now lastR lastE errLog waits sentB _ _
    refine ⟨[], [], ?_, ?_, ?_, ?_, ?_⟩
    · simp [doLoop]
    · rfl
    · simp
    · simp
    · intro _
      exact List.Pairwise.nil
  | succ s ih =>
    intro retried now lastR lastE errLog waits sentB hterm hjit
    have hT : isTerminal (env.transport retried) = false := by
      have := hterm 0 (Nat.succ_pos _)
      rwa [Nat.add_zero] at this
    obtain ⟨j, hE⟩ : ∃ j, expJitterBackOff retried opts.BackOffDelayFactor
        (env.randVal retried) = some j := by
      have := hjit 0 (Nat.succ_pos _)
      rw [Nat.add_zero] at this
      exact Option.isSome_iff_exists.mp this
    rw [doLoop_succ_retry opts env ob s retried now lastR lastE errLog waits sentB j hT hE]
    obtain ⟨E', W', hEq, hWlen, hElen, hEge, hPair⟩ := ih (retried + 1)
      (now + env.transportDur retried + j.toNat + env.waitSlack retried)
      (env.transport retried).response (env.transport retried).error
      (if opts.KeepLog then
        errLog ++ [errEntryNow (env.transport retried) now
          (now + env.transportDur retried)]
       else errLog)
      (waits ++ [j]) (sentB ++ [ob])
      (fun k hk => by
        have := hterm (k + 1) (Nat.succ_lt_succ hk)
        rwa [show retried + (k + 1) = retried + 1 + k by omega] at this)
      (fun k hk => by
        have := hjit (k + 1) (Nat.succ_lt_succ hk)
        rwa [show retried + (k + 1) = retried + 1 + k by omega] at this)
    refine ⟨(if opts.KeepLog then
        [errEntryNow (env.transport retried) now (now + env.transportDur retried)]
       else []) ++ E', j :: W', ?_, ?_, ?_, ?_, ?_⟩
    · rw [hEq]
      have hlog : (if opts.KeepLog then
            errLog ++ [errEntryNow (env.transport retried) now
              (now + env.transportDur retried)]
           else errLog) ++ E'
          = errLog ++ ((if opts.KeepLog then
              [errEntryNow (env.transport retried) now
                (now + env.transportDur retried)]
             else []) ++ E') := by
        by_cases hK : opts.KeepLog <;> simp [hK]
      have h2 : (if s = 0 then (env.transport retried).response
          else (env.transport (retried + 1 + s - 1)).response)
          = (if s + 1 = 0 then lastR
             else (env.transport (retried + (s + 1) - 1)).response) := by
        cases s with
        | zero => simp
        | succ u =>
          rw [if_neg (Nat.succ_ne_zero u), if_neg (Nat.succ_ne_zero (u + 1)),
            show retried + 1 + (u + 1) - 1 = retried + (u + 1 + 1) - 1 by omega]
      have h3 : (if s = 0 then (env.transport retried).error
          else (env.transport (retried + 1 + s - 1)).error)
          = (if s + 1 = 0 then lastE
             else (env.transport (retried + (s + 1) - 1)).error) := by
        cases s with
        | zero => simp
        | succ u =>
          rw [if_neg (Nat.succ_ne_zero u), if_neg (Nat.succ_ne_zero (u + 1)),
            show retried + 1 + (u + 1) - 1 = retried + (u + 1 + 1) - 1 by omega]
      congr 1
      · rw [h2, h3, hlog, show retried + 1 + s = retried + (s + 1) by omega]
      · omega
      · simp
      · simp [List.replicate_succ]
    · simp [hWlen]
    · by_cases hK : opts.KeepLog
      · rw [if_pos hK] at hElen
        simp [hK, hElen]
      · rw [if_neg hK] at hElen
        simp [hK, hElen]
    · intro e he
      rcases List.mem_append.mp he with h | h
      · by_cases hK : opts.KeepLog
        · rw [if_pos hK] at h
          simp only [List.mem_singleton] at h
          subst h
          exact Nat.le_refl _
        · rw [if_neg hK] at h
          simp at h
      · exact Nat.le_trans (by omega) (hEge e h)
    · intro hpos
      have hj : 0 < j := hpos 0 (Nat.succ_pos _) j (by rwa [Nat.add_zero])
      have hnow : now < now + env.transportDur retried + j.toNat + env.waitSlack retried := by
        omega
      have hPair' := hPair (fun k hk j' hj' => by
        refine hpos (k + 1) (Nat.succ_lt_succ hk) j' ?_
        rwa [show retried + (k + 1) = retried + 1 + k by omega])
      by_cases hK : opts.KeepLog
      · rw [if_pos hK, List.singleton_append, List.pairwise_cons]
        refine ⟨fun b hb => ?_, hPair'⟩
        exact Nat.lt_of_lt_of_le hnow (hEge b hb)
      · rw [if_neg hK, List.nil_append]
        exact hPair'

/-- An attempt whose transport error is non-nil is never terminal: the
line-194 condition fails on its first conjunct. -/
theorem isTerminal_of_error (t : TransportResult) (e : String)
    (h : t.error = some e) : isTerminal t = false := by
  cases t with
  | ok r => simp [TransportResult.error] at h
  | fail rsp e => rfl

/-- Unfolding of `Do` on a successfully captured body: the retry loop runs
with `MaxRetries` iterations of fuel from counter 0, a fresh clock and empty
accumulators. -/
theorem Do_eq_doLoop (opts : FailAwareHTTPOptions) (env : DoEnv)
    (body : Option (Except String (List Nat))) (clock : Nat)
    (ob : Option (List Nat)) (hbody : readBody body = .ok ob) :
    Do opts env body clock
      = doLoop opts env ob opts.MaxRetries.toNat 0 clock none none [] [] [] := by
  simp only [Do]
  rw [hbody]

/-- The recorded waits only ever grow: the trace's wait list extends the
accumulator the loop was entered with. -/
theorem doLoop_waits_prefix (opts : FailAwareHTTPOptions) (env : DoEnv)
    (ob : Option (List Nat)) :
    ∀ (fuel retried now : Nat) (lastR : Option Response) (lastE : Option String)
      (errLog : List ErrEntry) (waits : List Int) (sentB : List (Option (List Nat))),
      ∃ tl, (doLoop opts env ob fuel retried now lastR lastE errLog waits sentB).waits
        = waits ++ tl := by
  intro fuel
  induction fuel with
  | zero =>
    intro retried now lastR lastE errLog waits sentB
    exact ⟨[], by simp [doLoop]⟩
  | succ fuel ih =>
    intro retried now lastR lastE errLog waits sentB
    by_cases hT : isTerminal (env.transport retried)
    · rw [doLoop_succ_terminal opts env ob fuel retried now lastR lastE errLog waits sentB hT]
      exact ⟨[], by simp⟩
    · rw [Bool.not_eq_true] at hT
      cases hE : expJitterBackOff retried opts.BackOffDelayFactor (env.randVal retried) with
      | none =>
        rw [doLoop_succ_panic opts env ob fuel retried now lastR lastE errLog waits sentB hT hE]
        exact ⟨[], by simp⟩
      | some j =>
        rw [doLoop_succ_retry opts env ob fuel retried now lastR lastE errLog waits sentB j hT hE]
        obtain ⟨tl, htl⟩ := ih (retried + 1)
          (now + env.transportDur retried + j.toNat + env.waitSlack retried)
          (env.transport retried).response (env.transport retried).error
          (if opts.KeepLog then
            errLog ++ [errEntryNow (env.transport retried) now
              (now + env.transportDur retried)]
           else errLog)
          (waits ++ [j]) (sentB ++ [ob])
        exact ⟨j :: tl, by simp [htl]⟩

/-! ## Claim theorems -/

/-- C4 (amended).  For every attempt index `i` and factor whose
whole-millisecond base `B = 2^i * (factor / 1ms)` satisfies `3 ≤ B`
(so the jitter interval is non-empty and `rand.Intn` does not panic) and
`B ≤ 10^12` (no 64-bit overflow), with the random value drawn from
`[0, 2*maxJitter)` where `maxJitter = B / 3` by truncating division, the
backoff calculator returns `base + jitter` with
`jitter = r - maxJitter ∈ [-maxJitter, +maxJitter)`; the result lies within
`[B - B/3, B + B/3]` milliseconds and is positive. -/
theorem backoff_formula (i : Nat) (factor r : Int)
    (hbase : 3 ≤ 2 ^ i * Int.tdiv factor timeMillisecond)
    (hhi : 2 ^ i * Int.tdiv factor timeMillisecond ≤ 10 ^ 12)
    (hr0 : 0 ≤ r)
    (hr1 : r < 2 * ((2 ^ i * Int.tdiv factor timeMillisecond) / 3)) :
    ∃ d : Int,
      expJitterBackOff i factor r = some d ∧
      d = (2 ^ i * Int.tdiv factor timeMillisecond
           + (r - (2 ^ i * Int.tdiv factor timeMillisecond) / 3)) * 1000000 ∧
      (2 ^ i * Int.tdiv factor timeMillisecond
        - (2 ^ i * Int.tdiv factor timeMillisecond) / 3) * 1000000 ≤ d ∧
      d ≤ (2 ^ i * Int.tdiv factor timeMillisecond
           + (2 ^ i * Int.tdiv factor timeMillisecond) / 3) * 1000000 ∧
      0 < d := by
  refine ⟨_, expJitterBackOff_eq i factor r hbase hhi hr0 hr1, ?_, ?_, ?_, ?_⟩
  · ring
  · omega
  · omega
  · omega

/-- C4 (witness): the repo test configuration `BackOffDelayFactor = 5ms` at
attempt index 0 with random value 0 yields the 4ms delay the test records. -/
theorem backoff_formula_witness :
    ∃ d : Int,
      expJitterBackOff 0 (5 * timeMillisecond) 0 = some d ∧
      d = (2 ^ 0 * Int.tdiv (5 * timeMillisecond) timeMillisecond
           + (0 - (2 ^ 0 * Int.tdiv (5 * timeMillisecond) timeMillisecond) / 3)) * 1000000 ∧
      (2 ^ 0 * Int.tdiv (5 * timeMillisecond) timeMillisecond
        - (2 ^ 0 * Int.tdiv (5 * timeMillisecond) timeMillisecond) / 3) * 1000000 ≤ d ∧
      d ≤ (2 ^ 0 * Int.tdiv (5 * timeMillisecond) timeMillisecond
           + (2 ^ 0 * Int.tdiv (5 * timeMillisecond) timeMillisecond) / 3) * 1000000 ∧
      0 < d :=
  backoff_formula 0 (5 * timeMillisecond) 0 (by decide) (by decide) (by decide) (by decide)

/-- C4 (counterexample to the claim as stated).  At attempt index 0 with a
factor of exactly one millisecond the base is 1 ms, `maxJitter = 1/3 = 0`,
and `rand.Intn(0)` panics: the calculator returns no value at all, so it does
not return `base + jitter` for every index and factor. -/
theorem backoff_panics_one_ms_factor :
    expJitterBackOff 0 (1 * timeMillisecond) 0 = none := by decide

/-- C5 (code bug).  A factor below one millisecond truncates to a zero
millisecond base, `maxJitter = 0`, and the computation panics inside
`rand.Intn` instead of completing and clamping to 1 ms: the backoff
calculation is not total. -/
theorem backoff_panics_submillisecond_factor :
    expJitterBackOff 0 500000 0 = none := by decide

/-- C8.  When reading the request body fails, `Do` returns that error with a
nil response before any attempt: no transport call, no attempt record, no
backoff wait. -/
theorem body_read_error_aborts (opts : FailAwareHTTPOptions) (env : DoEnv)
    (e : String) (clock : Nat) :
    Do opts env (some (.error e)) clock =
      { result := .bodyReadError e, attempts := 0, waits := [], log := [],
        sentBodies := [], deadBranch := false } := rfl

/-- C10.  An effective `MaxRetries ≤ 0` is obtainable only by passing a
negative value to `NewClient` (zero is replaced by the default 3), and then
every `Do` call whose body capture succeeds performs zero transport
attempts and returns nil response and nil error, with no attempt records
and no waits. -/
theorem negative_maxretries_no_attempts :
    (∀ o : FailAwareHTTPOptions, (NewClient o).MaxRetries ≤ 0 ↔ o.MaxRetries < 0) ∧
    (∀ (o : FailAwareHTTPOptions) (env : DoEnv)
        (body : Option (Except String (List Nat))) (clock : Nat)
        (ob : Option (List Nat)),
      o.MaxRetries < 0 → readBody body = .ok ob →
      Do (NewClient o) env body clock =
        { result := .returned none none, attempts := 0, waits := [], log := [],
          sentBodies := [], deadBranch := false }) := by
  have hM : ∀ o : FailAwareHTTPOptions,
      (NewClient o).MaxRetries = if o.MaxRetries = 0 then 3 else o.MaxRetries := by
    intro o
    rfl
  constructor
  · intro o
    rw [hM]
    split <;> omega
  · intro o env body clock ob h hbody
    have h0 : (NewClient o).MaxRetries.toNat = 0 := by
      rw [hM]
      rw [if_neg (by omega)]
      omega
    rw [Do_eq_doLoop _ _ _ _ _ hbody, h0]
    rfl

/-- C10 (witness): `MaxRetries = -1` survives option resolution and yields a
call with zero attempts and the `(nil, nil)` return. -/
theorem negative_maxretries_no_attempts_witness :
    (NewClient { MaxRetries := -1, Timeout := 0, BackOffDelayFactor := 0,
                 KeepLog := false }).MaxRetries ≤ 0 ∧
    Do (NewClient { MaxRetries := -1, Timeout := 0, BackOffDelayFactor := 0,
                    KeepLog := false })
        (constEnv (.ok ⟨200⟩)) none 0 =
      { result := .returned none none, attempts := 0, waits := [], log := [],
        sentBodies := [], deadBranch := false } :=
  ⟨(negative_maxretries_no_attempts.1 _).mpr (by decide),
   negative_maxretries_no_attempts.2 _ (constEnv (.ok ⟨200⟩)) none 0 none
     (by decide) rfl⟩

/-- C7.  Whenever the body capture succeeds, every attempt installs exactly
the captured bytes: the body sent on attempt `k` equals the body sent on
attempt 1 for every `k`, and a nil body means no attempt sends a body. -/
theorem body_replay_constant (opts : FailAwareHTTPOptions) (env : DoEnv)
    (body : Option (Except String (List Nat))) (clock : Nat)
    (ob : Option (List Nat)) (hbody : readBody body = .ok ob) :
    (Do opts env body clock).sentBodies
      = List.replicate (Do opts env body clock).attempts ob := by
  rw [Do_eq_doLoop opts env body clock ob hbody]
  obtain ⟨n, h1, h2⟩ :=
    doLoop_sentBodies opts env ob opts.MaxRetries.toNat 0 clock none none [] [] []
  rw [h1, h2]
  simp

/-- C7 (witness): a two-byte body is installed unchanged on every attempt of
a defaulted client. -/
theorem body_replay_constant_witness :
    (Do { MaxRetries := 3, Timeout := timeSecond, BackOffDelayFactor := timeSecond,
          KeepLog := false }
        (constEnv (.ok ⟨201⟩)) (some (.ok [104, 105])) 0).sentBodies
      = List.replicate
          (Do { MaxRetries := 3, Timeout := timeSecond,
                BackOffDelayFactor := timeSecond, KeepLog := false }
              (constEnv (.ok ⟨201⟩)) (some (.ok [104, 105])) 0).attempts
          (some [104, 105]) :=
  body_replay_constant _ _ (some (.ok [104, 105])) 0 (some [104, 105]) rfl

/-- C2.  The classification is exactly the line-194 rule: terminal-success
holds iff the error is nil and the status is `< 500` and `≠ 429`; a terminal
first attempt makes `Do` return `(response, nil)` immediately (even for 4xx
statuses) with no wait; the dead line-198 branch is never taken (so there is
no third classification); and a retryable first attempt is followed by a
backoff wait. -/
theorem classification_rule :
    (∀ t : TransportResult, isTerminal t = true ↔
        ∃ r, t = TransportResult.ok r ∧ r.statusCode < 500 ∧ r.statusCode ≠ 429) ∧
    (∀ (opts : FailAwareHTTPOptions) (env : DoEnv)
        (body : Option (Except String (List Nat))) (clock : Nat)
        (ob : Option (List Nat)) (r : Response),
      readBody body = .ok ob → 1 ≤ opts.MaxRetries → env.transport 0 = .ok r →
      r.statusCode < 500 → r.statusCode ≠ 429 →
        (Do opts env body clock).result = .returned (some r) none ∧
        (Do opts env body clock).attempts = 1 ∧
        (Do opts env body clock).waits = []) ∧
    (∀ (opts : FailAwareHTTPOptions) (env : DoEnv)
        (body : Option (Except String (List Nat))) (clock : Nat),
      (Do opts env body clock).deadBranch = false) ∧
    (∀ (opts : FailAwareHTTPOptions) (env : DoEnv)
        (body : Option (Except String (List Nat))) (clock : Nat)
        (ob : Option (List Nat)),
      readBody body = .ok ob → 1 ≤ opts.MaxRetries →
      isTerminal (env.transport 0) = false →
      (expJitterBackOff 0 opts.BackOffDelayFactor (env.randVal 0)).isSome = true →
      1 ≤ (Do opts env body clock).waits.length) := by
  refine ⟨isTerminal_iff, ?_, ?_, ?_⟩
  · intro opts env body clock ob r hbody hmax htr h5 h4
    obtain ⟨s, hs⟩ : ∃ s, opts.MaxRetries.toNat = s + 1 :=
      ⟨opts.MaxRetries.toNat - 1, by omega⟩
    have hT : isTerminal (env.transport 0) = true := (isTerminal_iff _).mpr ⟨r, htr, h5, h4⟩
    rw [Do_eq_doLoop opts env body clock ob hbody, hs,
      doLoop_succ_terminal opts env ob s 0 clock none none [] [] [] hT]
    refine ⟨?_, rfl, rfl⟩
    rw [htr]
    rfl
  · intro opts env body clock
    cases hb : readBody body with
    | error e =>
      have hD : Do opts env body clock =
          { result := .bodyReadError e, attempts := 0, waits := [], log := [],
            sentBodies := [], deadBranch := false } := by
        simp only [Do]
        rw [hb]
      rw [hD]
    | ok ob =>
      rw [Do_eq_doLoop opts env body clock ob hb]
      exact doLoop_deadBranch_false opts env ob _ 0 clock none none [] [] []
  · intro opts env body clock ob hbody hmax hT hjit
    obtain ⟨s, hs⟩ : ∃ s, opts.MaxRetries.toNat = s + 1 :=
      ⟨opts.MaxRetries.toNat - 1, by omega⟩
    obtain ⟨j, hj⟩ := Option.isSome_iff_exists.mp hjit
    rw [Do_eq_doLoop opts env body clock ob hbody, hs,
      doLoop_succ_retry opts env ob s 0 clock none none [] [] [] j hT hj]
    obtain ⟨tl, htl⟩ := doLoop_waits_prefix opts env ob s 1
      (clock + env.transportDur 0 + j.toNat + env.waitSlack 0)
      (env.transport 0).response (env.transport 0).error
      (if opts.KeepLog then [] ++ [errEntryNow (env.transport 0) clock
        (clock + env.transportDur 0)] else [])
      ([] ++ [j]) ([] ++ [ob])
    rw [htl]
    simp

/-- C2 (witness): a 400 response on the first attempt of a defaulted client
is returned as `(response, nil)` at once, with one attempt and no wait. -/
theorem classification_rule_witness :
    (Do { MaxRetries := 3, Timeout := timeSecond, BackOffDelayFactor := timeSecond,
          KeepLog := false }
        (constEnv (.ok ⟨400⟩)) none 0).result = .returned (some ⟨400⟩) none ∧
    (Do { MaxRetries := 3, Timeout := timeSecond, BackOffDelayFactor := timeSecond,
          KeepLog := false }
        (constEnv (.ok ⟨400⟩)) none 0).attempts = 1 ∧
    (Do { MaxRetries := 3, Timeout := timeSecond, BackOffDelayFactor := timeSecond,
          KeepLog := false }
        (constEnv (.ok ⟨400⟩)) none 0).waits = [] :=
  classification_rule.2.1 _ (constEnv (.ok ⟨400⟩)) none 0 none ⟨400⟩ rfl (by decide)
    rfl (by decide) (by decide)

/-- Unfolding of the exhaustion exit on a non-nil last error (line 210). -/
theorem exhaustResult_some (n : Nat) (lastR : Option Response)
    (lastE : Option String) (errLog : List ErrEntry) (h : lastE ≠ none) :
    exhaustResult n lastR lastE errLog =
      .returned lastR
        (some { Retries := (n : Int), Errors := errLog, LastError := lastE }) := by
  simp [exhaustResult, h]

/-- Unfolding of the exhaustion exit on a nil last error (line 208). -/
theorem exhaustResult_none (n : Nat) (lastR : Option Response)
    (errLog : List ErrEntry) :
    exhaustResult n lastR none errLog = .returned lastR none := rfl

/-- C1 (amended).  When all `N = MaxRetries ≥ 1` attempts are retryable and
no backoff computation panics, the exhausted loop returns the last response
paired with: the structured `FailAwareHTTPError` carrying `Retries = N`, the
attempt log and the last error — but only when the final attempt's transport
error is non-nil; when the final attempt was retryable by status alone (its
error nil), `Do` returns a bare nil error. -/
theorem exhaustion_failure_iff_last_error (opts : FailAwareHTTPOptions)
    (env : DoEnv) (body : Option (Except String (List Nat))) (clock : Nat)
    (ob : Option (List Nat)) (N : Nat)
    (hN : opts.MaxRetries = (N : Int)) (h1 : 1 ≤ N)
    (hbody : readBody body = .ok ob)
    (hretry : ∀ i, i < N → isTerminal (env.transport i) = false)
    (hjit : ∀ i, i < N →
      (expJitterBackOff i opts.BackOffDelayFactor (env.randVal i)).isSome = true) :
    ((env.transport (N - 1)).error ≠ none →
      (Do opts env body clock).result =
        .returned (env.transport (N - 1)).response
          (some { Retries := (N : Int), Errors := (Do opts env body clock).log,
                  LastError := (env.transport (N - 1)).error })) ∧
    ((env.transport (N - 1)).error = none →
      (Do opts env body clock).result =
        .returned (env.transport (N - 1)).response none) := by
  have hD := Do_eq_doLoop opts env body clock ob hbody
  have hfuel : opts.MaxRetries.toNat = N := by
    rw [hN]
    rfl
  rw [hfuel] at hD
  obtain ⟨E, W, hEq, hWlen, hElen, hEge, hPair⟩ :=
    doLoop_all_retryable opts env ob N 0 clock none none [] [] []
      (fun k hk => by simpa using hretry k hk)
      (fun k hk => by simpa using hjit k hk)
  rw [hD, hEq]
  simp only [Nat.zero_add, List.nil_append, if_neg (show ¬ N = 0 by omega)]
  constructor
  · intro h
    rw [exhaustResult_some N _ _ E h]
  · intro h
    rw [h, exhaustResult_none]

/-- C1 (witness): two transport failures on a `MaxRetries = 2` client yield
the structured error with `Retries = 2`, the log and the last error. -/
theorem exhaustion_failure_iff_last_error_witness :
    (Do { MaxRetries := 2, Timeout := timeSecond, BackOffDelayFactor := timeSecond,
          KeepLog := true }
        (constEnv (.fail none "dial tcp")) none 0).result =
      .returned none
        (some { Retries := 2,
                Errors := (Do { MaxRetries := 2, Timeout := timeSecond,
                                BackOffDelayFactor := timeSecond, KeepLog := true }
                    (constEnv (.fail none "dial tcp")) none 0).log,
                LastError := some "dial tcp" }) :=
  (exhaustion_failure_iff_last_error
      { MaxRetries := 2, Timeout := timeSecond, BackOffDelayFactor := timeSecond,
        KeepLog := true }
      (constEnv (.fail none "dial tcp")) none 0 none 2 rfl (by decide) rfl
      (fun _ _ => rfl)
      (fun i hi => by interval_cases i <;> decide)).1 (by decide)

/-- C1 (counterexample to the claim as stated).  A `MaxRetries = 2` client
whose every attempt yields a 500-status response with nil transport error
exhausts all attempts yet returns a bare nil error, not a
`FailAwareHTTPError`. -/
theorem exhaustion_with_nil_error :
    (Do { MaxRetries := 2, Timeout := timeSecond, BackOffDelayFactor := timeSecond,
          KeepLog := true }
        (constEnv (.ok ⟨500⟩)) none 0).result = .returned (some ⟨500⟩) none ∧
    (Do { MaxRetries := 2, Timeout := timeSecond, BackOffDelayFactor := timeSecond,
          KeepLog := true }
        (constEnv (.ok ⟨500⟩)) none 0).attempts = 2 := by decide

/-- C3.  Against a transport that fails on every one of the
`N = MaxRetries ≥ 1` attempts (with positive, non-panicking jitters), the
returned failure carries `retries = N`; with `KeepLog` its attempt log has
exactly `N` entries, and the entries' `startedAt` timestamps are strictly
increasing. -/
theorem transport_failure_exhaustion (opts : FailAwareHTTPOptions)
    (env : DoEnv) (body : Option (Except String (List Nat))) (clock : Nat)
    (ob : Option (List Nat)) (N : Nat)
    (hN : opts.MaxRetries = (N : Int)) (h1 : 1 ≤ N)
    (hbody : readBody body = .ok ob)
    (hfail : ∀ i, i < N → ∃ e, (env.transport i).error = some e)
    (hjit : ∀ i, i < N → ∃ j,
      expJitterBackOff i opts.BackOffDelayFactor (env.randVal i) = some j ∧ 0 < j) :
    ∃ err : FailAwareHTTPError,
      (Do opts env body clock).result
        = .returned (env.transport (N - 1)).response (some err) ∧
      err.Retries = (N : Int) ∧
      err.Errors = (Do opts env body clock).log ∧
      err.LastError = (env.transport (N - 1)).error ∧
      (opts.KeepLog = true → err.Errors.length = N) ∧
      List.Pairwise (fun a b : ErrEntry => a.timestampStarted < b.timestampStarted)
        err.Errors := by
  have hD := Do_eq_doLoop opts env body clock ob hbody
  have hfuel : opts.MaxRetries.toNat = N := by
    rw [hN]
    rfl
  rw [hfuel] at hD
  obtain ⟨E, W, hEq, hWlen, hElen, hEge, hPair⟩ :=
    doLoop_all_retryable opts env ob N 0 clock none none [] [] []
      (fun k hk => by
        obtain ⟨e, he⟩ := hfail k (by omega)
        simpa using isTerminal_of_error _ e he)
      (fun k hk => by
        obtain ⟨j, hj, _⟩ := hjit k (by omega)
        simp [hj])
  have hlastE : ∃ e, (env.transport (N - 1)).error = some e := hfail (N - 1) (by omega)
  obtain ⟨e, he⟩ := hlastE
  refine ⟨{ Retries := (N : Int), Errors := E,
            LastError := (env.transport (N - 1)).error }, ?_, rfl, ?_, rfl, ?_, ?_⟩
  · rw [hD, hEq]
    simp only [Nat.zero_add, List.nil_append, if_neg (show ¬ N = 0 by omega)]
    rw [exhaustResult_some N _ _ E (by rw [he]; exact Option.some_ne_none e)]
  · rw [hD, hEq]
    simp
  · intro hK
    rw [hElen, if_pos hK]
  · exact hPair (fun k hk j' hj' => by
      obtain ⟨j, hj, hjpos⟩ := hjit k (by omega)
      rw [show (0 : Nat) + k = k by omega, hj] at hj'
      injection hj' with h
      omega)

/-- C3 (witness): two consecutive transport failures with `KeepLog` produce
the structured failure with `retries = 2` and a two-entry strictly
increasing log. -/
theorem transport_failure_exhaustion_witness :
    ∃ err : FailAwareHTTPError,
      (Do { MaxRetries := 2, Timeout := timeSecond, BackOffDelayFactor := timeSecond,
            KeepLog := true }
          (constEnv (.fail none "connection refused")) none 0).result
        = .returned none (some err) ∧
      err.Retries = 2 ∧
      err.Errors = (Do { MaxRetries := 2, Timeout := timeSecond,
                         BackOffDelayFactor := timeSecond, KeepLog := true }
          (constEnv (.fail none "connection refused")) none 0).log ∧
      err.LastError = some "connection refused" ∧
      (true = true → err.Errors.length = 2) ∧
      List.Pairwise (fun a b : ErrEntry => a.timestampStarted < b.timestampStarted)
        err.Errors :=
  transport_failure_exhaustion
    { MaxRetries := 2, Timeout := timeSecond, BackOffDelayFactor := timeSecond,
      KeepLog := true }
    (constEnv (.fail none "connection refused")) none 0 none 2 rfl (by decide) rfl
    (fun _ _ => ⟨"connection refused", rfl⟩)
    (fun i hi => by
      interval_cases i
      · exact ⟨667000000, by decide, by decide⟩
      · exact ⟨1334000000, by decide, by decide⟩)

/-- C6 (amended).  Provided no jitter computation panics, a backoff wait is
recorded after an attempt exactly when that attempt is classified retryable
— including the final attempt before exhaustion: the number of waits equals
the number of retryable attempts among those performed. -/
theorem wait_iff_retryable (opts : FailAwareHTTPOptions) (env : DoEnv)
    (body : Option (Except String (List Nat))) (clock : Nat)
    (ob : Option (List Nat))
    (hbody : readBody body = .ok ob)
    (hjit : ∀ i, i < opts.MaxRetries.toNat →
      (expJitterBackOff i opts.BackOffDelayFactor (env.randVal i)).isSome = true) :
    (Do opts env body clock).waits.length =
      (List.range (Do opts env body clock).attempts).countP
        (fun i => !(isTerminal (env.transport i))) := by
  rw [Do_eq_doLoop opts env body clock ob hbody]
  obtain ⟨n, h1, h2⟩ :=
    doLoop_wait_count opts env ob opts.MaxRetries.toNat 0 clock none none [] [] []
      (fun k hk => by simpa using hjit k hk)
  rw [h1, h2]
  simp [List.range_eq_range']

/-- C6 (witness): with `MaxRetries = 2` and a transport that always fails,
both performed attempts are retryable and both are followed by a wait. -/
theorem wait_iff_retryable_witness :
    (Do { MaxRetries := 2, Timeout := timeSecond, BackOffDelayFactor := timeSecond,
          KeepLog := false }
        (constEnv (.fail none "dial tcp")) none 0).waits.length =
      (List.range (Do { MaxRetries := 2, Timeout := timeSecond,
                        BackOffDelayFactor := timeSecond, KeepLog := false }
          (constEnv (.fail none "dial tcp")) none 0).attempts).countP
        (fun i => !(isTerminal ((constEnv (.fail none "dial tcp")).transport i))) :=
  wait_iff_retryable
    { MaxRetries := 2, Timeout := timeSecond, BackOffDelayFactor := timeSecond,
      KeepLog := false }
    (constEnv (.fail none "dial tcp")) none 0 none rfl
    (fun i hi => by
      have h2 : i < 2 := by simpa using hi
      interval_cases i <;> decide)

/-- C6 (counterexample to the claim as stated).  With `MaxRetries = 1` and a
retryable 503 response, the single (hence final) attempt is followed by a
backoff wait before the loop falls through to exhaustion — the claim says no
wait ever follows the final attempt. -/
theorem wait_after_final_attempt :
    (Do { MaxRetries := 1, Timeout := timeSecond, BackOffDelayFactor := timeSecond,
          KeepLog := false }
        (constEnv (.ok ⟨503⟩)) none 0).attempts = 1 ∧
    (Do { MaxRetries := 1, Timeout := timeSecond, BackOffDelayFactor := timeSecond,
          KeepLog := false }
        (constEnv (.ok ⟨503⟩)) none 0).waits = [667000000] := by decide

/-- C9 (code bug).  A request whose cancellation signal is set before any
attempt (every transport call returns the cancellation error immediately) is
not cut short: the loop performs all `MaxRetries = 3` attempts, sleeps the
full backoff after each of them, and reports `Retries = 3` — not 0 as the
claim (and the repository's `TestNoDoRetryOnContextCancel`) requires. -/
theorem cancelled_request_runs_all_retries :
    (Do { MaxRetries := 3, Timeout := 10 * timeMillisecond,
          BackOffDelayFactor := 5 * timeMillisecond, KeepLog := true }
        (constEnv (.fail none "context canceled")) none 0).result =
      .returned none
        (some { Retries := 3,
                Errors := (Do { MaxRetries := 3, Timeout := 10 * timeMillisecond,
                                BackOffDelayFactor := 5 * timeMillisecond,
                                KeepLog := true }
                    (constEnv (.fail none "context canceled")) none 0).log,
                LastError := some "context canceled" }) ∧
    (Do { MaxRetries := 3, Timeout := 10 * timeMillisecond,
          BackOffDelayFactor := 5 * timeMillisecond, KeepLog := true }
        (constEnv (.fail none "context canceled")) none 0).attempts = 3 ∧
    (Do { MaxRetries := 3, Timeout := 10 * timeMillisecond,
          BackOffDelayFactor := 5 * timeMillisecond, KeepLog := true }
        (constEnv (.fail none "context canceled")) none 0).waits =
      [4000000, 7000000, 14000000] := by decide
